import Mathlib

/-!
Verification of the HTTP caching proxy `Proxy-bonus.py` against its
natural-language specification.

The first half of this file is a shallow embedding of the pure logic of the
source program.  Python strings are Lean `String`s; Python's substring
primitives (`in`, `split(sep, 1)`, `split(sep)`, `startswith`) are modelled on
the underlying character lists.  Library functions external to the repository
(`email.utils.parsedate_to_datetime`, `float`, `int`) are treated as
parameters, or modelled by simple executable parsers where a concrete
instantiation is needed; times are rationals (seconds).  Raised Python
exceptions are modelled with `Except`.

The second half states and proves the claims.
-/

/-! ### Python string primitives -/

/-- Model of Python `s.split(sep, 1)` on character lists: finds the leftmost
occurrence of `sep` and splits there, returning `none` when `sep` does not
occur (Python would return a one-element list in that case).  Also the model of
the substring test `sep in s` (`none` ↔ not contained). -/
def splitOnSeq (sep : List Char) : List Char → Option (List Char × List Char)
  | [] => if sep.isPrefixOf ([] : List Char) then some ([], []) else none
  | c :: rest =>
    if sep.isPrefixOf (c :: rest) then some ([], (c :: rest).drop sep.length)
    else (splitOnSeq sep rest).map (fun p => (c :: p.1, p.2))

/-- Fuelled worker for `splitSeqAll`; the fuel makes the recursion structural
so that terms evaluate by kernel reduction. -/
def splitSeqAllF (sep : List Char) : Nat → List Char → List (List Char)
  | 0, l => [l]
  | fuel + 1, l =>
    match splitOnSeq sep l with
    | some p => p.1 :: splitSeqAllF sep fuel p.2
    | none => [l]

/-- Model of Python `s.split(sep)` (no maxsplit) on character lists, for a
non-empty separator. -/
def splitSeqAll (sep l : List Char) : List (List Char) :=
  splitSeqAllF sep (l.length + 1) l

/-- Python `s.split(sep, 1)` at the `String` level (see `splitOnSeq`). -/
def pySplitOnce (sep s : String) : Option (String × String) :=
  (splitOnSeq sep.data s.data).map (fun p => (String.mk p.1, String.mk p.2))

/-- Python substring test `sep in s`. -/
def pyContains (s sep : String) : Bool :=
  (splitOnSeq sep.data s.data).isSome

/-- Python `s.split(sep)` at the `String` level. -/
def pySplitAll (sep s : String) : List String :=
  (splitSeqAll sep.data s.data).map String.mk

/-- Python `s.startswith(pre)`. -/
def pyStartsWith (pre s : String) : Bool :=
  pre.data.isPrefixOf s.data

/-- Value of a run of decimal digits, most significant first (what Python
`int` computes on a plain digit string). -/
def digitsToNat (ds : List Char) : Nat :=
  ds.foldl (fun n c => n * 10 + (c.toNat - 48)) 0

/-- Model of Python `int(s)` restricted to optionally-signed plain decimal
strings; `none` models `int` raising `ValueError`.  (Exotic accepted forms
such as embedded underscores or surrounding whitespace are not modelled; no
input in this development has them.) -/
def pyIntOn : List Char → Option Int
  | [] => none
  | '-' :: ds =>
    if ds ≠ [] ∧ ds.all Char.isDigit then some (-(digitsToNat ds : Int)) else none
  | '+' :: ds =>
    if ds ≠ [] ∧ ds.all Char.isDigit then some ((digitsToNat ds : Int)) else none
  | ds => if ds.all Char.isDigit then some ((digitsToNat ds : Int)) else none

/-- The parser `pyIntOn` at the `String` level. -/
def pyIntSimple (s : String) : Option Int := pyIntOn s.data

/-- Model of Python `float(s)` restricted to unsigned plain decimal literals
(`"123"`, `"12.5"`, `"1."`, `".5"`); `none` models `float` raising
`ValueError`.  (Exponent and sign forms are not modelled; no input in this
development has them.) -/
def pyFloatOn (cs : List Char) : Option ℚ :=
  match cs.dropWhile Char.isDigit with
  | [] => if cs = [] then none else some ((digitsToNat cs : ℚ))
  | '.' :: fp =>
    if fp.all Char.isDigit ∧ (cs.takeWhile Char.isDigit ≠ [] ∨ fp ≠ []) then
      some ((digitsToNat (cs.takeWhile Char.isDigit) : ℚ) +
        (digitsToNat fp : ℚ) / ((10 : ℚ) ^ fp.length))
    else none
  | _ => none

/-- The parser `pyFloatOn` at the `String` level. -/
def pyFloatSimple (s : String) : Option ℚ := pyFloatOn s.data

/-! ### Header mappings -/

/-- A response-header mapping, as built by `extract_headers_from_cache`:
pairs in insertion order.  Python's `dict` is observed by the program only
through key lookup and containment, which `hLookup` reproduces (on duplicate
names the last assignment wins, as in `headers[name] = value`). -/
abbrev Headers := List (String × String)

/-- Dictionary lookup: the value of the last pair with the given key. -/
def hLookup : Headers → String → Option String
  | [], _ => none
  | (k, v) :: rest, key =>
    match hLookup rest key with
    | some v2 => some v2
    | none => if k == key then some v else none

/-! ### External library interface -/

/-- The one Python exception the embedded code can raise. -/
inductive PyExc
  | valueError
deriving DecidableEq

/-- The two external parsing functions `is_cache_valid` calls.
`parsedate_to_datetime` maps an RFC-5322-style date string to a UTC time in
seconds, `none` covering every raising path (unparseable date, or the
aware/naive comparison failure, both caught by the source).  `float` is
Python `float`, `none` meaning it raises `ValueError` (which the source does
NOT catch at its call site). -/
structure PyLib where
  parsedate_to_datetime : String → Option ℚ
  float : String → Option ℚ

/-- Concrete instantiation of `PyLib` used by closed theorems and witnesses:
a date parser that fails on every input (the witnesses exercise the
parse-failure path) together with the simplified float parser. -/
def libSimple : PyLib := ⟨fun _ => none, pyFloatSimple⟩

/-! ### Embedded source functions -/

/-- Global `CACHE_DIR` (line 24 of the source). -/
def CACHE_DIR : String := "proxy_cache/"

/-- The character substitution of `re.sub(r'[^a-zA-Z0-9]', '_', url)`:
characters outside `[A-Za-z0-9]` become `'_'`. -/
def sanitizeChar (c : Char) : Char :=
  if c.isAlphanum then c else '_'

/-- Embedding of `generate_cache_filename` (lines 33-36): `CACHE_DIR` plus the URL with
every character outside `[A-Za-z0-9]` replaced by `'_'`. -/
def generate_cache_filename (url : String) : String :=
  CACHE_DIR ++ String.mk (url.data.map sanitizeChar)

/-- The regex search `re.search(r'max-age=(\d+)', cc)` at one position: the
literal `max-age=` followed by at least one digit, the captured group being
the maximal digit run. -/
def matchMaxAge (cs : List Char) : Option Nat :=
  if "max-age=".data.isPrefixOf cs then
    match (cs.drop 8).takeWhile Char.isDigit with
    | [] => none
    | ds => some (digitsToNat ds)
  else none

/-- The regex search `re.search(r'max-age=(\d+)', cc)`: leftmost match wins. -/
def searchMaxAge : List Char → Option Nat
  | [] => none
  | c :: rest =>
    match matchMaxAge (c :: rest) with
    | some n => some n
    | none => searchMaxAge rest

/-- Embedding of `is_cache_valid` (lines 38-84).  `now` is the current wall-clock time in
seconds (the source reads it twice, as `datetime.datetime.now(utc)` and as
`time.time()`; both denote the same instant).  The uncaught `ValueError`
from `float(headers['cache-timestamp'])` on line 77 is modelled by
`Except.error`. -/
def is_cache_valid (lib : PyLib) (now : ℚ) (headers : Headers) :
    Except PyExc Bool :=
  match hLookup headers "Expires" with
  | some expires_str =>
    match lib.parsedate_to_datetime expires_str with
    | some expires_time => Except.ok (decide (now < expires_time))
    | none => Except.ok false
  | none =>
    match hLookup headers "Cache-Control" with
    | some cache_control =>
      if pyContains cache_control "no-cache" || pyContains cache_control "no-store" then
        Except.ok false
      else
        match searchMaxAge cache_control.data with
        | some max_age =>
          match hLookup headers "cache-timestamp" with
          | some ts_str =>
            match lib.float ts_str with
            | some cache_time => Except.ok (decide (now - cache_time < (max_age : ℚ)))
            | none => Except.error PyExc.valueError
          | none => Except.ok false
        | none => Except.ok false
    | none => Except.ok false

/-- Embedding of `extract_headers_from_cache` (lines 86-109), applied to the decoded file
content: split head from body at the first `\r\n\r\n` (empty mapping when the
separator is absent), then collect `name: value` from every head line after
the status line that contains `": "`, split at its first occurrence. -/
def extract_headers_from_cache (content : String) : Headers :=
  match pySplitOnce "\r\n\r\n" content with
  | none => []
  | some (headerSection, _) =>
    ((pySplitAll "\r\n" headerSection).drop 1).filterMap
      (fun line => pySplitOnce ": " line)

/-- The cache-write second pass (lines 356-364, identically lines 220-228):
split the stored text at the first `\r\n\r\n` and append a
`cache-timestamp: <ts>` line to the head section; unchanged when the
separator is absent.  (The source rewrites the same file in place; the new
text is strictly longer than the old, so the rewrite is total.) -/
def add_cache_timestamp (ts content : String) : String :=
  match pySplitOnce "\r\n\r\n" content with
  | some (hd, body) => hd ++ "\r\ncache-timestamp: " ++ ts ++ "\r\n\r\n" ++ body
  | none => content

/-- URL resolution of `prefetch_resources` (lines 144-157).  `protocol` and
`base_hostname` are `urlparse(base_url).scheme` and `.netloc`.  Four cases in
order: `http` prefix unchanged; `//` prefix gets `protocol:` prepended;
`/` prefix gets `protocol://base_hostname` prepended; otherwise the resource
is appended to the base URL's directory (`'/'.join(base_url.split('/')[:-1])
+ '/'`). -/
def resolve_resource (protocol base_hostname base_url resource : String) : String :=
  if pyStartsWith "http" resource then resource
  else if pyStartsWith "//" resource then protocol ++ ":" ++ resource
  else if pyStartsWith "/" resource then protocol ++ "://" ++ base_hostname ++ resource
  else (String.intercalate "/" (pySplitAll "/" base_url).dropLast ++ "/") ++ resource

/-- Per-candidate decision of `prefetch_resources` (lines 139-157): `none`
when the candidate is skipped (`javascript:` prefix, `"#"`, or empty),
otherwise the resolved URL a fetch task is dispatched for. -/
def prefetch_decision (protocol base_hostname base_url resource : String) :
    Option String :=
  if pyStartsWith "javascript:" resource || resource == "#" || resource == "" then none
  else some (resolve_resource protocol base_hostname base_url resource)

/-- Scheme stripping of `extract_server_info` (lines 248-249): drop
everything up to and including the first `://`. -/
def strip_scheme (url : String) : String :=
  match pySplitOnce "://" url with
  | some p => p.2
  | none => url

/-- Host/path split of `extract_server_info` (lines 252-257): split at the
first `/`; the path keeps a leading `/` and defaults to `"/"`. -/
def split_host_path (u : String) : String × String :=
  match pySplitOnce "/" u with
  | some p => (p.1, "/" ++ p.2)
  | none => (u, "/")

/-- Port extraction of `extract_server_info` (lines 259-269): split
`host:port` at the first `:`; a missing or unparseable port token defaults
to 80.  `pyInt` is Python `int`. -/
def parse_host_port (pyInt : String → Option Int) (server_info : String) :
    String × Int :=
  match pySplitOnce ":" server_info with
  | some p => (p.1, match pyInt p.2 with | some n => n | none => 80)
  | none => (server_info, 80)

/-- Embedding of `extract_server_info` (lines 236-271): returns `(hostname, port, path)`. -/
def extract_server_info (pyInt : String → Option Int) (url : String) :
    String × Int × String :=
  let u := strip_scheme url
  let sp := split_host_path u
  let hp := parse_host_port pyInt sp.1
  (hp.1, hp.2, sp.2)

/-! ### CLI argument check -/

/-- An output channel of the process. -/
inductive Channel
  | stdout
  | stderr
deriving DecidableEq

/-- What `main` does before binding the socket when it exits early. -/
structure UsageExit where
  channel : Channel
  message : String
  code : Nat
deriving DecidableEq

/-- Argument check of `main` (lines 392-395): with no positional argument
(`len(sys.argv) <= 1`) it `print`s the usage message — `print` writes to
standard output — and exits with code 1; otherwise it proceeds. -/
def main_arg_check (argv : List String) : Option UsageExit :=
  if argv.length ≤ 1 then
    some ⟨Channel.stdout, "Usage: python Proxy-bonus.py <port>", 1⟩
  else none

/-! ### Lemmas about the string-splitting primitives -/

theorem prefixOf_ex {l₁ l₂ : List Char} :
    l₁.isPrefixOf l₂ = true ↔ ∃ t, l₂ = l₁ ++ t := by
  induction l₁ generalizing l₂ with
  | nil => simp [List.isPrefixOf]
  | cons a as ih =>
    cases l₂ with
    | nil => simp [List.isPrefixOf]
    | cons b bs =>
      simp only [List.isPrefixOf, Bool.and_eq_true, beq_iff_eq, ih, List.cons_append,
        List.cons.injEq]
      constructor
      · rintro ⟨rfl, t, rfl⟩
        exact ⟨t, rfl, rfl⟩
      · rintro ⟨t, rfl, rfl⟩
        exact ⟨rfl, t, rfl⟩

theorem splitOnSeq_sound {sep l a b : List Char}
    (h : splitOnSeq sep l = some (a, b)) : l = a ++ sep ++ b := by
  induction l generalizing a b with
  | nil =>
    cases sep with
    | nil =>
      simp only [splitOnSeq, List.isPrefixOf, if_true, Option.some.injEq,
        Prod.mk.injEq] at h
      obtain ⟨rfl, rfl⟩ := h
      rfl
    | cons s ss => simp [splitOnSeq, List.isPrefixOf] at h
  | cons c rest ih =>
    by_cases hp : sep.isPrefixOf (c :: rest) = true
    · obtain ⟨t, ht⟩ := prefixOf_ex.mp hp
      simp only [splitOnSeq, hp, if_true, Option.some.injEq, Prod.mk.injEq] at h
      obtain ⟨rfl, rfl⟩ := h
      rw [List.nil_append, ht, List.drop_left]
    · rw [Bool.not_eq_true] at hp
      simp only [splitOnSeq, hp, Bool.false_eq_true, if_false, Option.map_eq_some'] at h
      obtain ⟨⟨a2, b2⟩, h2, he⟩ := h
      simp only [Prod.mk.injEq] at he
      obtain ⟨rfl, rfl⟩ := he
      simp [ih h2]

theorem splitOnSeq_first {s0 : Char} {st l a b : List Char}
    (h : splitOnSeq (s0 :: st) l = some (a, b)) :
    splitOnSeq (s0 :: st) a = none := by
  induction l generalizing a b with
  | nil => simp [splitOnSeq, List.isPrefixOf] at h
  | cons c rest ih =>
    by_cases hp : (s0 :: st).isPrefixOf (c :: rest) = true
    · simp only [splitOnSeq, hp, if_true, Option.some.injEq, Prod.mk.injEq] at h
      obtain ⟨rfl, rfl⟩ := h
      simp [splitOnSeq, List.isPrefixOf]
    · rw [Bool.not_eq_true] at hp
      simp only [splitOnSeq, hp, Bool.false_eq_true, if_false, Option.map_eq_some'] at h
      obtain ⟨⟨a2, b2⟩, h2, he⟩ := h
      simp only [Prod.mk.injEq] at he
      obtain ⟨rfl, rfl⟩ := he
      have ha2 := ih h2
      have hq : (s0 :: st).isPrefixOf (c :: a2) = false := by
        rw [Bool.eq_false_iff]
        intro hq
        obtain ⟨t, ht⟩ := prefixOf_ex.mp hq
        have : (s0 :: st).isPrefixOf (c :: rest) = true := by
          rw [splitOnSeq_sound h2, ← List.cons_append, ← List.cons_append, ht]
          exact prefixOf_ex.mpr ⟨t ++ (s0 :: st) ++ b2, by simp⟩
        rw [hp] at this
        exact Bool.false_ne_true this
      simp [splitOnSeq, hq, ha2]

theorem splitOnSeq_skip {s0 : Char} {st : List Char} (as rest : List Char)
    (h : ∀ c ∈ as, c ≠ s0) :
    splitOnSeq (s0 :: st) (as ++ rest) =
      (splitOnSeq (s0 :: st) rest).map (fun p => (as ++ p.1, p.2)) := by
  induction as with
  | nil =>
    cases h2 : splitOnSeq (s0 :: st) rest <;> simp [h2]
  | cons a as ih =>
    have ha : ((s0 :: st).isPrefixOf (a :: (as ++ rest))) = false := by
      simp [List.isPrefixOf, beq_eq_false_iff_ne.mpr
        (fun e => h a (List.mem_cons_self a as) e.symm)]
    have ih2 := ih (fun c hc => h c (List.mem_cons_of_mem a hc))
    cases h2 : splitOnSeq (s0 :: st) rest <;>
      simp [List.cons_append, splitOnSeq, ha, ih2, h2]

theorem splitOnSeq_none_of {s0 : Char} {st : List Char} (l : List Char)
    (h : ∀ c ∈ l, c ≠ s0) : splitOnSeq (s0 :: st) l = none := by
  have h2 := @splitOnSeq_skip s0 st l [] h
  simpa [splitOnSeq, List.isPrefixOf] using h2

theorem splitOnSeq_crlf2_exact (b : List Char) :
    splitOnSeq ['\r', '\n', '\r', '\n'] ('\r' :: '\n' :: '\r' :: '\n' :: b) =
      some ([], b) := by
  simp [splitOnSeq, List.isPrefixOf, prefixOf_ex.mpr ⟨b, rfl⟩]

theorem splitOnSeq_crlf1_exact (b : List Char) :
    splitOnSeq ['\r', '\n'] ('\r' :: '\n' :: b) = some ([], b) := by
  simp [splitOnSeq, List.isPrefixOf, prefixOf_ex.mpr ⟨b, rfl⟩]

theorem splitOnSeq_colon_exact (b : List Char) :
    splitOnSeq [':', ' '] (':' :: ' ' :: b) = some ([], b) := by
  simp [splitOnSeq, List.isPrefixOf, prefixOf_ex.mpr ⟨b, rfl⟩]

theorem splitOnSeq_cons_skip {s0 : Char} {st : List Char} (c : Char) (rest : List Char)
    (hne : (s0 :: st).isPrefixOf (c :: rest) = false) :
    splitOnSeq (s0 :: st) (c :: rest) =
      (splitOnSeq (s0 :: st) rest).map (fun p => (c :: p.1, p.2)) := by
  cases h2 : splitOnSeq (s0 :: st) rest <;> simp [splitOnSeq, hne, h2]

theorem splitOnSeq_crlf_step (c : Char) (hc : c ≠ '\r') (rest : List Char) :
    splitOnSeq ['\r', '\n', '\r', '\n'] ('\r' :: '\n' :: c :: rest) =
      (splitOnSeq ['\r', '\n', '\r', '\n'] (c :: rest)).map
        (fun p => ('\r' :: '\n' :: p.1, p.2)) := by
  have hc2 : ('\r' == c) = false := beq_eq_false_iff_ne.mpr (fun e => hc e.symm)
  have hne1 : (['\r', '\n', '\r', '\n'] : List Char).isPrefixOf
      ('\r' :: '\n' :: c :: rest) = false := by
    simp [List.isPrefixOf, hc2]
  have hne2 : (['\r', '\n', '\r', '\n'] : List Char).isPrefixOf
      ('\n' :: c :: rest) = false := by
    simp [List.isPrefixOf]
  rw [splitOnSeq_cons_skip _ _ hne1, splitOnSeq_cons_skip _ _ hne2]
  cases splitOnSeq ['\r', '\n', '\r', '\n'] (c :: rest) <;> simp

theorem splitOnSeq_length {sep l a b : List Char}
    (h : splitOnSeq sep l = some (a, b)) :
    l.length = a.length + sep.length + b.length := by
  rw [splitOnSeq_sound h]
  simp
  omega

theorem splitSeqAllF_congr (s0 : Char) (st : List Char) :
    ∀ f g l, l.length < f → l.length < g →
      splitSeqAllF (s0 :: st) f l = splitSeqAllF (s0 :: st) g l := by
  intro f
  induction f with
  | zero => intro g l hf; omega
  | succ f ih =>
    intro g l hf hg
    cases g with
    | zero => omega
    | succ g =>
      cases h2 : splitOnSeq (s0 :: st) l with
      | none => simp [splitSeqAllF, h2]
      | some p =>
        obtain ⟨a, b⟩ := p
        have hl := splitOnSeq_length h2
        simp only [List.length_cons] at hl
        have hb : b.length < f := by omega
        have hb2 : b.length < g := by omega
        simp [splitSeqAllF, h2, ih g b hb hb2]

theorem splitSeqAll_cons {s0 : Char} {st l a b : List Char}
    (h : splitOnSeq (s0 :: st) l = some (a, b)) :
    splitSeqAll (s0 :: st) l = a :: splitSeqAll (s0 :: st) b := by
  have hl := splitOnSeq_length h
  simp only [List.length_cons] at hl
  unfold splitSeqAll
  rw [show splitSeqAllF (s0 :: st) (l.length + 1) l =
      a :: splitSeqAllF (s0 :: st) l.length b by simp [splitSeqAllF, h]]
  rw [splitSeqAllF_congr s0 st l.length (b.length + 1) b (by omega) (by omega)]

theorem splitSeqAll_single {s0 : Char} {st l : List Char}
    (h : splitOnSeq (s0 :: st) l = none) :
    splitSeqAll (s0 :: st) l = [l] := by
  unfold splitSeqAll
  simp [splitSeqAllF, h]

theorem pyFloatOn_isSome_chars {cs : List Char} (h : (pyFloatOn cs).isSome = true) :
    ∀ c ∈ cs, c.isDigit = true ∨ c = '.' := by
  intro c hc
  unfold pyFloatOn at h
  split at h
  case _ heq =>
    left
    exact List.dropWhile_eq_nil_iff.mp heq c hc
  case _ fp heq =>
    split at h
    case _ hcond =>
      have hcs : cs = cs.takeWhile Char.isDigit ++ '.' :: fp := by
        rw [← heq, List.takeWhile_append_dropWhile]
      rw [hcs] at hc
      rcases List.mem_append.mp hc with h2 | h2
      · exact Or.inl (List.mem_takeWhile_imp h2)
      · rcases List.mem_cons.mp h2 with h3 | h3
        · exact Or.inr h3
        · exact Or.inl (List.all_eq_true.mp hcond.1 c h3)
    case _ => simp at h
  case _ => simp at h

theorem pyFloat_chars {s : String} (h : (pyFloatSimple s).isSome = true) :
    ∀ c ∈ s.data, c.isDigit = true ∨ c = '.' :=
  pyFloatOn_isSome_chars h

theorem digit_or_dot_ne_cr {c : Char} (h : c.isDigit = true ∨ c = '.') : c ≠ '\r' := by
  rcases h with h | h
  · intro e
    rw [e] at h
    simp [Char.isDigit] at h
  · intro e
    rw [e] at h
    exact absurd h (by decide)

theorem split_crlf4_head (s1 s2t s3t ds body : List Char) (c2 c3 : Char)
    (h1 : ∀ c ∈ s1, c ≠ '\r') (hc2 : c2 ≠ '\r') (h2t : ∀ c ∈ s2t, c ≠ '\r')
    (hc3 : c3 ≠ '\r') (h3t : ∀ c ∈ s3t, c ≠ '\r') (hds : ∀ c ∈ ds, c ≠ '\r') :
    splitOnSeq ['\r', '\n', '\r', '\n']
        (s1 ++ '\r' :: '\n' :: c2 ::
          (s2t ++ '\r' :: '\n' :: c3 ::
            (s3t ++ (ds ++ '\r' :: '\n' :: '\r' :: '\n' :: body)))) =
      some (s1 ++ '\r' :: '\n' :: c2 ::
        (s2t ++ '\r' :: '\n' :: c3 :: (s3t ++ ds)), body) := by
  have h3all : ∀ c ∈ c3 :: s3t, c ≠ '\r' := by
    intro c hc
    rcases List.mem_cons.mp hc with h | h
    · rw [h]; exact hc3
    · exact h3t c h
  have h2all : ∀ c ∈ c2 :: s2t, c ≠ '\r' := by
    intro c hc
    rcases List.mem_cons.mp hc with h | h
    · rw [h]; exact hc2
    · exact h2t c h
  have e1 : splitOnSeq ['\r', '\n', '\r', '\n']
      (c3 :: (s3t ++ (ds ++ '\r' :: '\n' :: '\r' :: '\n' :: body))) =
      some (c3 :: (s3t ++ ds), body) := by
    have hsk := @splitOnSeq_skip '\r' ['\n', '\r', '\n']
      (c3 :: s3t) (ds ++ '\r' :: '\n' :: '\r' :: '\n' :: body) h3all
    rw [List.cons_append] at hsk
    rw [hsk, @splitOnSeq_skip '\r' ['\n', '\r', '\n'] ds _ hds,
      splitOnSeq_crlf2_exact]
    simp
  have e2 : splitOnSeq ['\r', '\n', '\r', '\n']
      ('\r' :: '\n' :: c3 :: (s3t ++ (ds ++ '\r' :: '\n' :: '\r' :: '\n' :: body))) =
      some ('\r' :: '\n' :: c3 :: (s3t ++ ds), body) := by
    rw [splitOnSeq_crlf_step c3 hc3, e1]
    rfl
  have e3 : splitOnSeq ['\r', '\n', '\r', '\n']
      (c2 :: (s2t ++ '\r' :: '\n' :: c3 ::
        (s3t ++ (ds ++ '\r' :: '\n' :: '\r' :: '\n' :: body)))) =
      some (c2 :: (s2t ++ '\r' :: '\n' :: c3 :: (s3t ++ ds)), body) := by
    have hsk := @splitOnSeq_skip '\r' ['\n', '\r', '\n']
      (c2 :: s2t) ('\r' :: '\n' :: c3 ::
        (s3t ++ (ds ++ '\r' :: '\n' :: '\r' :: '\n' :: body))) h2all
    rw [List.cons_append] at hsk
    rw [hsk, e2]
    simp
  have e4 : splitOnSeq ['\r', '\n', '\r', '\n']
      ('\r' :: '\n' :: c2 :: (s2t ++ '\r' :: '\n' :: c3 ::
        (s3t ++ (ds ++ '\r' :: '\n' :: '\r' :: '\n' :: body)))) =
      some ('\r' :: '\n' :: c2 :: (s2t ++ '\r' :: '\n' :: c3 :: (s3t ++ ds)), body) := by
    rw [splitOnSeq_crlf_step c2 hc2, e3]
    rfl
  rw [@splitOnSeq_skip '\r' ['\n', '\r', '\n'] s1 _ h1, e4]
  simp

theorem splitAll_crlf_lines (s1 s2t s3t ds : List Char) (c2 c3 : Char)
    (h1 : ∀ c ∈ s1, c ≠ '\r') (hc2 : c2 ≠ '\r') (h2t : ∀ c ∈ s2t, c ≠ '\r')
    (hc3 : c3 ≠ '\r') (h3t : ∀ c ∈ s3t, c ≠ '\r') (hds : ∀ c ∈ ds, c ≠ '\r') :
    splitSeqAll ['\r', '\n']
        (s1 ++ '\r' :: '\n' :: c2 :: (s2t ++ '\r' :: '\n' :: c3 :: (s3t ++ ds))) =
      [s1, c2 :: s2t, c3 :: (s3t ++ ds)] := by
  have f1 : splitOnSeq ['\r', '\n']
      (s1 ++ '\r' :: '\n' :: c2 :: (s2t ++ '\r' :: '\n' :: c3 :: (s3t ++ ds))) =
      some (s1, c2 :: (s2t ++ '\r' :: '\n' :: c3 :: (s3t ++ ds))) := by
    rw [@splitOnSeq_skip '\r' ['\n'] s1 _ h1, splitOnSeq_crlf1_exact]
    simp
  rw [splitSeqAll_cons f1]
  have f2 : splitOnSeq ['\r', '\n']
      (c2 :: (s2t ++ '\r' :: '\n' :: c3 :: (s3t ++ ds))) =
      some (c2 :: s2t, c3 :: (s3t ++ ds)) := by
    have hsk := @splitOnSeq_skip '\r' ['\n']
      (c2 :: s2t) ('\r' :: '\n' :: c3 :: (s3t ++ ds)) (by
        intro c hc
        rcases List.mem_cons.mp hc with h | h
        · rw [h]; exact hc2
        · exact h2t c h)
    rw [List.cons_append] at hsk
    rw [hsk, splitOnSeq_crlf1_exact]
    simp
  rw [splitSeqAll_cons f2]
  have f3 : splitOnSeq ['\r', '\n'] (c3 :: (s3t ++ ds)) = none := by
    apply splitOnSeq_none_of
    intro c hc
    rcases List.mem_cons.mp hc with h | h
    · rw [h]; exact hc3
    · rcases List.mem_append.mp h with h2 | h2
      · exact h3t c h2
      · exact hds c h2
  rw [splitSeqAll_single f3]

theorem extract_headers_stored (ts : String) (hCR : ∀ c ∈ ts.data, c ≠ '\r') :
    extract_headers_from_cache (add_cache_timestamp ts
        "HTTP/1.1 200 OK\r\nContent-Type: text/plain\r\n\r\nhello") =
      [("Content-Type", "text/plain"), ("cache-timestamp", ts)] := by
  have hsplitRaw : pySplitOnce "\r\n\r\n"
      "HTTP/1.1 200 OK\r\nContent-Type: text/plain\r\n\r\nhello" =
      some ("HTTP/1.1 200 OK\r\nContent-Type: text/plain", "hello") := by decide
  have e0 : add_cache_timestamp ts
      "HTTP/1.1 200 OK\r\nContent-Type: text/plain\r\n\r\nhello" =
      "HTTP/1.1 200 OK\r\nContent-Type: text/plain" ++ "\r\ncache-timestamp: " ++
        ts ++ "\r\n\r\n" ++ "hello" := by
    unfold add_cache_timestamp
    rw [hsplitRaw]
  have eData : (add_cache_timestamp ts
      "HTTP/1.1 200 OK\r\nContent-Type: text/plain\r\n\r\nhello").data =
      "HTTP/1.1 200 OK".data ++ '\r' :: '\n' :: 'C' ::
        ("ontent-Type: text/plain".data ++ '\r' :: '\n' :: 'c' ::
          ("ache-timestamp: ".data ++
            (ts.data ++ '\r' :: '\n' :: '\r' :: '\n' :: "hello".data))) := by
    rw [e0]
    simp only [String.data_append]
    simp [List.append_assoc]
  have hsplit4 : pySplitOnce "\r\n\r\n" (add_cache_timestamp ts
      "HTTP/1.1 200 OK\r\nContent-Type: text/plain\r\n\r\nhello") =
      some (String.mk ("HTTP/1.1 200 OK".data ++ '\r' :: '\n' :: 'C' ::
        ("ontent-Type: text/plain".data ++ '\r' :: '\n' :: 'c' ::
          ("ache-timestamp: ".data ++ ts.data))), "hello") := by
    unfold pySplitOnce
    rw [show ("\r\n\r\n" : String).data = ['\r', '\n', '\r', '\n'] from by decide,
      eData,
      split_crlf4_head "HTTP/1.1 200 OK".data "ontent-Type: text/plain".data
        "ache-timestamp: ".data ts.data "hello".data 'C' 'c'
        (by decide) (by decide) (by decide) (by decide) (by decide) hCR]
    rfl
  have hlines : pySplitAll "\r\n" (String.mk ("HTTP/1.1 200 OK".data ++ '\r' :: '\n' :: 'C' ::
      ("ontent-Type: text/plain".data ++ '\r' :: '\n' :: 'c' ::
        ("ache-timestamp: ".data ++ ts.data)))) =
      ["HTTP/1.1 200 OK", "Content-Type: text/plain",
        String.mk ('c' :: ("ache-timestamp: ".data ++ ts.data))] := by
    unfold pySplitAll
    rw [show ("\r\n" : String).data = ['\r', '\n'] from by decide]
    rw [show (String.mk ("HTTP/1.1 200 OK".data ++ '\r' :: '\n' :: 'C' ::
      ("ontent-Type: text/plain".data ++ '\r' :: '\n' :: 'c' ::
        ("ache-timestamp: ".data ++ ts.data)))).data =
      "HTTP/1.1 200 OK".data ++ '\r' :: '\n' :: 'C' ::
      ("ontent-Type: text/plain".data ++ '\r' :: '\n' :: 'c' ::
        ("ache-timestamp: ".data ++ ts.data)) from rfl]
    rw [splitAll_crlf_lines "HTTP/1.1 200 OK".data "ontent-Type: text/plain".data
      "ache-timestamp: ".data ts.data 'C' 'c'
      (by decide) (by decide) (by decide) (by decide) (by decide) hCR]
    simp only [List.map]
  have g1 : pySplitOnce ": " "Content-Type: text/plain" =
      some ("Content-Type", "text/plain") := by decide
  have g2 : pySplitOnce ": " (String.mk ('c' :: ("ache-timestamp: ".data ++ ts.data))) =
      some ("cache-timestamp", ts) := by
    unfold pySplitOnce
    rw [show (": " : String).data = [':', ' '] from by decide]
    rw [show (String.mk ('c' :: ("ache-timestamp: ".data ++ ts.data))).data =
      'c' :: ("ache-timestamp: ".data ++ ts.data) from rfl]
    have eform : 'c' :: ("ache-timestamp: ".data ++ ts.data) =
        "cache-timestamp".data ++ ':' :: ' ' :: ts.data := by
      calc 'c' :: ("ache-timestamp: ".data ++ ts.data)
          = ('c' :: "ache-timestamp: ".data) ++ ts.data := rfl
        _ = ("cache-timestamp".data ++ [':', ' ']) ++ ts.data := by
            rw [show ('c' :: "ache-timestamp: ".data : List Char) =
              "cache-timestamp".data ++ [':', ' '] from by decide]
        _ = "cache-timestamp".data ++ ':' :: ' ' :: ts.data := by
            simp [List.append_assoc]
    rw [eform, @splitOnSeq_skip ':' [' '] "cache-timestamp".data _
      (by decide), splitOnSeq_colon_exact]
    simp
  simp only [extract_headers_from_cache, hsplit4, hlines, List.drop_succ_cons,
    List.drop_zero, List.filterMap_cons, List.filterMap_nil, g1, g2]

/-! ### The claims -/

/-- C1: for every header mapping containing an `Expires` header and every
current UTC time, `is_cache_valid` returns valid exactly when the value
parses as an RFC-5322-style date and the current time is strictly before the
parsed time; on parse failure the verdict is invalid; and the result is a
function of the `Expires` value alone, so the `Cache-Control` header is never
consulted. -/
theorem claim_C1_expires (lib : PyLib) (now : ℚ) (headers : Headers) (s : String)
    (h : hLookup headers "Expires" = some s) :
    is_cache_valid lib now headers =
      Except.ok (match lib.parsedate_to_datetime s with
        | some t => decide (now < t)
        | none => false) := by
  cases hp : lib.parsedate_to_datetime s <;> simp [is_cache_valid, h, hp]

/-- Witness for C1 at a concrete input (the parse-failure branch). -/
theorem claim_C1_witness :
    hLookup [("Expires", "garbage")] "Expires" = some "garbage" ∧
      is_cache_valid libSimple 0 [("Expires", "garbage")] =
        Except.ok (match libSimple.parsedate_to_datetime "garbage" with
          | some t => decide ((0 : ℚ) < t)
          | none => false) :=
  ⟨rfl, claim_C1_expires libSimple 0 [("Expires", "garbage")] "garbage" rfl⟩

/-- C2: with no `Expires` header but a `Cache-Control` header `cc`: if `cc`
contains `no-cache` or `no-store` (substring containment, as the source's
`in` tests) the verdict is invalid unconditionally; otherwise with a
`max-age=<seconds>` directive and a `cache-timestamp` header whose value the
float parser accepts, the verdict is valid exactly when
`now - cache-timestamp < max-age`; and whenever `max-age` is absent or the
timestamp is absent, the verdict is invalid. -/
theorem claim_C2_cache_control (lib : PyLib) (now : ℚ) (headers : Headers)
    (cc : String)
    (hE : hLookup headers "Expires" = none)
    (hC : hLookup headers "Cache-Control" = some cc) :
    ((pyContains cc "no-cache" || pyContains cc "no-store") = true →
      is_cache_valid lib now headers = Except.ok false) ∧
    ((pyContains cc "no-cache" || pyContains cc "no-store") = false →
      ∀ a ts ct, searchMaxAge cc.data = some a →
        hLookup headers "cache-timestamp" = some ts →
        lib.float ts = some ct →
        is_cache_valid lib now headers =
          Except.ok (decide (now - ct < (a : ℚ)))) ∧
    ((searchMaxAge cc.data = none ∨ hLookup headers "cache-timestamp" = none) →
      is_cache_valid lib now headers = Except.ok false) := by
  refine ⟨?_, ?_, ?_⟩
  · intro h
    simp [is_cache_valid, hE, hC, h]
  · intro h a ts ct ha hts hct
    simp [is_cache_valid, hE, hC, h, ha, hts, hct]
  · intro h
    by_cases hnc : (pyContains cc "no-cache" || pyContains cc "no-store") = true
    · simp [is_cache_valid, hE, hC, hnc]
    · rw [Bool.not_eq_true] at hnc
      rcases h with h | h
      · simp [is_cache_valid, hE, hC, hnc, h]
      · cases hma : searchMaxAge cc.data with
        | none => simp [is_cache_valid, hE, hC, hnc, hma]
        | some a => simp [is_cache_valid, hE, hC, hnc, hma, h]

/-- Witness for C2 at a concrete input (the max-age branch). -/
theorem claim_C2_witness :
    is_cache_valid libSimple 0 [("Cache-Control", "max-age=60"), ("cache-timestamp", "59")] =
      Except.ok (decide ((0 : ℚ) - ((digitsToNat "59".data : ℚ)) < ((60 : ℕ) : ℚ))) :=
  (claim_C2_cache_control libSimple 0
      [("Cache-Control", "max-age=60"), ("cache-timestamp", "59")] "max-age=60"
      rfl rfl).2.1 (by decide) 60 "59" ((digitsToNat "59".data : ℚ))
    (by decide) rfl rfl

/-- C3 names the conservative handling of parse failures; the `Expires` and
port cases hold (see C1 and C6), but on a non-numeric `cache-timestamp` the
source calls `float` outside any `try` (line 77), so `is_cache_valid` raises
`ValueError` instead of returning invalid.  This theorem evaluates the
embedded code at the failing input. -/
theorem claim_C3_nonnumeric_timestamp :
    is_cache_valid libSimple 100
        [("Cache-Control", "max-age=60"), ("cache-timestamp", "abc")] =
      Except.error PyExc.valueError := rfl

/-- C4: writing the raw response
`HTTP/1.1 200 OK\r\nContent-Type: text/plain\r\n\r\nhello` through the cache
write path (raw persist, then split at the first `\r\n\r\n` and append a
`cache-timestamp` header line) and reading headers back yields a mapping with
`Content-Type ↦ text/plain` and a `cache-timestamp` entry whose value is the
numeric timestamp string that was written. -/
theorem claim_C4_round_trip (ts : String) (h : (pyFloatSimple ts).isSome = true) :
    hLookup (extract_headers_from_cache (add_cache_timestamp ts
        "HTTP/1.1 200 OK\r\nContent-Type: text/plain\r\n\r\nhello")) "Content-Type" =
      some "text/plain" ∧
    hLookup (extract_headers_from_cache (add_cache_timestamp ts
        "HTTP/1.1 200 OK\r\nContent-Type: text/plain\r\n\r\nhello")) "cache-timestamp" =
      some ts ∧
    (pyFloatSimple ts).isSome = true := by
  have hCR : ∀ c ∈ ts.data, c ≠ '\r' := fun c hc =>
    digit_or_dot_ne_cr (pyFloat_chars h c hc)
  rw [extract_headers_stored ts hCR]
  refine ⟨?_, ?_, h⟩
  · have b1 : (("cache-timestamp" : String) == "Content-Type") = false := by decide
    have b2 : (("Content-Type" : String) == "Content-Type") = true := by decide
    simp [hLookup, b1, b2]
  · have b3 : (("cache-timestamp" : String) == "cache-timestamp") = true := by decide
    simp [hLookup, b3]

/-- Witness for C4 at a concrete timestamp. -/
theorem claim_C4_witness :
    (pyFloatSimple "1728000000.25").isSome = true ∧
      (hLookup (extract_headers_from_cache (add_cache_timestamp "1728000000.25"
          "HTTP/1.1 200 OK\r\nContent-Type: text/plain\r\n\r\nhello")) "Content-Type" =
        some "text/plain" ∧
      hLookup (extract_headers_from_cache (add_cache_timestamp "1728000000.25"
          "HTTP/1.1 200 OK\r\nContent-Type: text/plain\r\n\r\nhello")) "cache-timestamp" =
        some "1728000000.25" ∧
      (pyFloatSimple "1728000000.25").isSome = true) :=
  ⟨by decide, claim_C4_round_trip "1728000000.25" (by decide)⟩

/-- C5: the prefetch URL resolution proceeds by four cases checked in order
(absolute `http` prefix unchanged, protocol-relative `//` gets the base
scheme, root-relative `/` gets scheme plus base host, otherwise joined onto
the base URL's directory), with the spec's concrete examples over base
`http://ex.com/a/b.html`, and `javascript:`, `#`, and empty candidates are
excluded from the task set. -/
theorem claim_C5_url_resolution (protocol host base r : String) :
    ((pyStartsWith "javascript:" r || r == "#" || r == "") = true →
      prefetch_decision protocol host base r = none) ∧
    ((pyStartsWith "javascript:" r || r == "#" || r == "") = false →
      (pyStartsWith "http" r = true →
        prefetch_decision protocol host base r = some r) ∧
      (pyStartsWith "http" r = false → pyStartsWith "//" r = true →
        prefetch_decision protocol host base r = some (protocol ++ ":" ++ r)) ∧
      (pyStartsWith "http" r = false → pyStartsWith "//" r = false →
        pyStartsWith "/" r = true →
        prefetch_decision protocol host base r =
          some (protocol ++ "://" ++ host ++ r)) ∧
      (pyStartsWith "http" r = false → pyStartsWith "//" r = false →
        pyStartsWith "/" r = false →
        prefetch_decision protocol host base r =
          some ((String.intercalate "/" (pySplitAll "/" base).dropLast ++ "/") ++ r))) ∧
    prefetch_decision "http" "ex.com" "http://ex.com/a/b.html" "/c.png" =
      some "http://ex.com/c.png" ∧
    prefetch_decision "http" "ex.com" "http://ex.com/a/b.html" "//cdn.com/d.js" =
      some "http://cdn.com/d.js" ∧
    prefetch_decision "http" "ex.com" "http://ex.com/a/b.html" "e.png" =
      some "http://ex.com/a/e.png" ∧
    prefetch_decision "http" "ex.com" "http://ex.com/a/b.html" "http://x.com/f" =
      some "http://x.com/f" ∧
    prefetch_decision "http" "ex.com" "http://ex.com/a/b.html" "javascript:void(0)" =
      none ∧
    prefetch_decision "http" "ex.com" "http://ex.com/a/b.html" "#" = none ∧
    prefetch_decision "http" "ex.com" "http://ex.com/a/b.html" "" = none := by
  refine ⟨?_, ?_, by decide, by decide, by decide, by decide, by decide, by decide,
    by decide⟩
  · intro h
    simp [prefetch_decision, h]
  · intro h
    refine ⟨?_, ?_, ?_, ?_⟩
    · intro h1
      simp [prefetch_decision, resolve_resource, h, h1]
    · intro h1 h2
      simp [prefetch_decision, resolve_resource, h, h1, h2]
    · intro h1 h2 h3
      simp [prefetch_decision, resolve_resource, h, h1, h2, h3]
    · intro h1 h2 h3
      simp [prefetch_decision, resolve_resource, h, h1, h2, h3]

/-- Witness for C5 at a concrete input (the directory-relative branch). -/
theorem claim_C5_witness :
    (pyStartsWith "javascript:" "e.png" || "e.png" == "#" || "e.png" == "") = false ∧
      prefetch_decision "http" "ex.com" "http://ex.com/a/b.html" "e.png" =
        some ((String.intercalate "/"
          (pySplitAll "/" "http://ex.com/a/b.html").dropLast ++ "/") ++ "e.png") :=
  ⟨by decide,
    ((claim_C5_url_resolution "http" "ex.com" "http://ex.com/a/b.html" "e.png").2.1
      (by decide)).2.2.2 (by decide) (by decide) (by decide)⟩

/-- C6: `extract_server_info` splits the scheme-stripped target at the first
`/` for the path (defaulting to `/`), splits host from port at the first `:`,
and defaults the port to 80 when the token is absent or fails integer
parsing, with the spec's three concrete examples. -/
theorem claim_C6_origin_resolver (pyInt : String → Option Int)
    (h1 : pyInt "8080" = some 8080) (h2 : pyInt "notanumber" = none) :
    extract_server_info pyInt "example.com:8080/path" =
      ("example.com", 8080, "/path") ∧
    extract_server_info pyInt "example.com/path" = ("example.com", 80, "/path") ∧
    extract_server_info pyInt "example.com:notanumber/path" =
      ("example.com", 80, "/path") ∧
    (∀ u, pySplitOnce "/" u = none → split_host_path u = (u, "/")) ∧
    (∀ u a b, pySplitOnce "/" u = some (a, b) → split_host_path u = (a, "/" ++ b)) ∧
    (∀ si, pySplitOnce ":" si = none → parse_host_port pyInt si = (si, 80)) ∧
    (∀ si hs p, pySplitOnce ":" si = some (hs, p) → pyInt p = none →
      parse_host_port pyInt si = (hs, 80)) := by
  refine ⟨?_, rfl, ?_, ?_, ?_, ?_, ?_⟩
  · have e1 : extract_server_info pyInt "example.com:8080/path" =
        ("example.com", (match pyInt "8080" with
          | some n => n
          | none => 80 : Int), "/path") := rfl
    rw [e1, h1]
  · have e3 : extract_server_info pyInt "example.com:notanumber/path" =
        ("example.com", (match pyInt "notanumber" with
          | some n => n
          | none => 80 : Int), "/path") := rfl
    rw [e3, h2]
  · intro u hu
    simp [split_host_path, hu]
  · intro u a b hu
    simp [split_host_path, hu]
  · intro si hsi
    simp [parse_host_port, hsi]
  · intro si hs p hsi hp
    simp [parse_host_port, hsi, hp]

/-- Witness for C6 with the modelled `int` parser. -/
theorem claim_C6_witness :
    pyIntSimple "8080" = some 8080 ∧ pyIntSimple "notanumber" = none ∧
      extract_server_info pyIntSimple "example.com:8080/path" =
        ("example.com", 8080, "/path") :=
  ⟨by decide, by decide,
    (claim_C6_origin_resolver pyIntSimple (by decide) (by decide)).1⟩

/-- C7 counterexample: the claimed invariant `port ∈ 1..65535` fails — the
target `example.com:99999/path` produces port 99999, which the resolver
passes through unchecked. -/
theorem claim_C7_counterexample :
    extract_server_info pyIntSimple "example.com:99999/path" =
      ("example.com", 99999, "/path") ∧
    ¬ (1 ≤ (extract_server_info pyIntSimple "example.com:99999/path").2.1 ∧
        (extract_server_info pyIntSimple "example.com:99999/path").2.1 ≤ 65535) := by
  decide

/-- C7 amended: for every raw target the path starts with `/`, and the port
is an integer that is either the default 80 or exactly what the port token
parses to — no 1–65535 range restriction is enforced. -/
theorem claim_C7_amended (pyInt : String → Option Int) (url : String) :
    pyStartsWith "/" (extract_server_info pyInt url).2.2 = true ∧
    ((extract_server_info pyInt url).2.1 = 80 ∨
      ∃ tok, pySplitOnce ":" (split_host_path (strip_scheme url)).1 =
          some ((extract_server_info pyInt url).1, tok) ∧
        pyInt tok = some (extract_server_info pyInt url).2.1) := by
  constructor
  · cases hsp : pySplitOnce "/" (strip_scheme url) with
    | none =>
      simp [extract_server_info, split_host_path, hsp, pyStartsWith, List.isPrefixOf]
    | some p =>
      obtain ⟨a, b⟩ := p
      simp [extract_server_info, split_host_path, hsp, pyStartsWith,
        String.data_append, List.isPrefixOf]
  · cases hpp : pySplitOnce ":" (split_host_path (strip_scheme url)).1 with
    | none =>
      left
      simp [extract_server_info, parse_host_port, hpp]
    | some p =>
      obtain ⟨hs, tok⟩ := p
      cases hint : pyInt tok with
      | none =>
        left
        simp [extract_server_info, parse_host_port, hpp, hint]
      | some n =>
        right
        exact ⟨tok, by simp [extract_server_info, parse_host_port, hpp, hint]⟩

/-- C8: the cache-key function is deterministic, maps every character
outside `[A-Za-z0-9]` to `_` (and keeps the others), and therefore collides
on the two distinct URLs `http://a.com/x` and `http://a_com_x`. -/
theorem claim_C8_cache_key :
    (∀ u v : String, u = v → generate_cache_filename u = generate_cache_filename v) ∧
    generate_cache_filename "http://a.com/x" = generate_cache_filename "http://a_com_x" ∧
    ("http://a.com/x" : String) ≠ "http://a_com_x" ∧
    (∀ u : String, (generate_cache_filename u).data =
      CACHE_DIR.data ++ u.data.map sanitizeChar) ∧
    (∀ c : Char, c.isAlphanum = false → sanitizeChar c = '_') ∧
    (∀ c : Char, c.isAlphanum = true → sanitizeChar c = c) := by
  refine ⟨fun u v h => by rw [h], by decide, by decide, ?_, ?_, ?_⟩
  · intro u
    simp [generate_cache_filename, String.data_append]
  · intro c h
    simp [sanitizeChar, h]
  · intro c h
    simp [sanitizeChar, h]

/-- Witness for C8 at concrete characters. -/
theorem claim_C8_witness :
    generate_cache_filename "a" = generate_cache_filename "a" ∧
      sanitizeChar '!' = '_' ∧ sanitizeChar 'a' = 'a' :=
  ⟨claim_C8_cache_key.1 "a" "a" rfl,
    claim_C8_cache_key.2.2.2.2.1 '!' (by decide),
    claim_C8_cache_key.2.2.2.2.2 'a' (by decide)⟩

/-- C9 counterexample: with no positional argument the source `print`s the
usage message, and `print` writes to standard output, not standard error as
claimed (the exit code 1 is as claimed). -/
theorem claim_C9_counterexample :
    main_arg_check ["Proxy-bonus.py"] =
      some ⟨Channel.stdout, "Usage: python Proxy-bonus.py <port>", 1⟩ ∧
    Channel.stdout ≠ Channel.stderr := by decide

/-- C9 amended: started with no positional argument, the program emits the
usage message to standard output and exits with exit code 1. -/
theorem claim_C9_amended (argv : List String) (h : argv.length ≤ 1) :
    main_arg_check argv =
      some ⟨Channel.stdout, "Usage: python Proxy-bonus.py <port>", 1⟩ := by
  simp [main_arg_check, h]

/-- Witness for the amended C9. -/
theorem claim_C9_witness :
    ([] : List String).length ≤ 1 ∧
      main_arg_check [] =
        some ⟨Channel.stdout, "Usage: python Proxy-bonus.py <port>", 1⟩ :=
  ⟨by decide, claim_C9_amended [] (by decide)⟩

/-- C10: every entry of the mapping returned by `extract_headers_from_cache`
comes from a head-section line after the status line of the literal shape
`name: value` whose name contains no earlier `': '`; and on the concrete
example a `Name:value` line (no space after the colon) is silently omitted,
hence invisible to lookups. -/
theorem claim_C10_header_lines :
    (∀ content n v : String, (n, v) ∈ extract_headers_from_cache content →
      ∃ hd bd, pySplitOnce "\r\n\r\n" content = some (hd, bd) ∧
        (n ++ ": " ++ v) ∈ (pySplitAll "\r\n" hd).drop 1 ∧
        pyContains n ": " = false) ∧
    extract_headers_from_cache
        "HTTP/1.1 200 OK\r\nName:value\r\nContent-Type: text/plain\r\n\r\nbody" =
      [("Content-Type", "text/plain")] ∧
    hLookup (extract_headers_from_cache
        "HTTP/1.1 200 OK\r\nName:value\r\nContent-Type: text/plain\r\n\r\nbody")
      "Name" = none := by
  refine ⟨?_, by decide, by decide⟩
  intro content n v hmem
  unfold extract_headers_from_cache at hmem
  cases hsp : pySplitOnce "\r\n\r\n" content with
  | none =>
    rw [hsp] at hmem
    simp at hmem
  | some p =>
    obtain ⟨hd, bd⟩ := p
    rw [hsp] at hmem
    simp only [List.mem_filterMap] at hmem
    obtain ⟨line, hline, hsplit⟩ := hmem
    unfold pySplitOnce at hsplit
    rw [show (": " : String).data = [':', ' '] from by decide] at hsplit
    obtain ⟨p2, hp2, he⟩ := Option.map_eq_some'.mp hsplit
    obtain ⟨n2, v2⟩ := p2
    simp only [Prod.mk.injEq] at he
    obtain ⟨hn, hv⟩ := he
    have hdata : line.data = n2 ++ [':', ' '] ++ v2 := splitOnSeq_sound hp2
    have hline_eq : line = n ++ ": " ++ v := by
      apply String.ext
      rw [String.data_append, String.data_append, ← hn, ← hv]
      rw [show (": " : String).data = [':', ' '] from by decide]
      exact hdata
    have hcontains : pyContains n ": " = false := by
      rw [← hn]
      show (splitOnSeq [':', ' '] n2).isSome = false
      rw [splitOnSeq_first hp2]
      rfl
    exact ⟨hd, bd, rfl, by rw [← hline_eq]; exact hline, hcontains⟩

/-- Witness for C10 at a concrete entry of a concrete cached file. -/
theorem claim_C10_witness :
    ("Content-Type", "text/plain") ∈ extract_headers_from_cache
        "HTTP/1.1 200 OK\r\nContent-Type: text/plain\r\n\r\nbody" ∧
      ∃ hd bd, pySplitOnce "\r\n\r\n"
          "HTTP/1.1 200 OK\r\nContent-Type: text/plain\r\n\r\nbody" = some (hd, bd) ∧
        ("Content-Type" ++ ": " ++ "text/plain") ∈ (pySplitAll "\r\n" hd).drop 1 ∧
        pyContains "Content-Type" ": " = false :=
  ⟨by decide, claim_C10_header_lines.1
    "HTTP/1.1 200 OK\r\nContent-Type: text/plain\r\n\r\nbody"
    "Content-Type" "text/plain" (by decide)⟩
